import Mathlib

/-!
Verification of the HEIC-to-JPEG browser-extension relay pipeline.

The development shallowly embeds the pipeline's pure logic:
  * the Page Agent placeholder editing and result polling (content script),
  * the Dispatcher cleanup sweep and bulk-tier result polling (background script),
  * the Relay Host conversion queue and per-item conversion (offscreen script),
  * the Converter Cell error normalisation and output renaming (sandbox script),
  * the two storage tiers (chrome.storage.local as the signal tier and
    IndexedDB as the bulk tier), both modelled as association lists.

Strings are Lean `String`s (kernel-level lists of characters); machine clocks,
byte-size pretty-printing and stack renderings are environment inputs passed
as opaque strings, since the surrounding logic only concatenates them into
messages.  Asynchronous loops are embedded as fuel-indexed recursions whose
fuel is proved sufficient, so every definition is executable.
-/

/-- A stored JS record as used by both storage tiers.  Requests carry
`data`/`fileName`; success results carry `success`/`data`/`fileName`;
failure results carry `error` (plus `errorTime`/`errorStack` in the
offscreen catch block).  `none` models an absent field. -/
structure JSRecord where
  success : Option Bool := none
  data : Option String := none
  fileName : Option String := none
  error : Option String := none
  errorTime : Option String := none
  errorStack : Option String := none
deriving DecidableEq

/-- A storage tier: an association list from keys to records (both
`chrome.storage.local` and the IndexedDB object store are key/value maps). -/
abbrev Store := List (String × JSRecord)

/-- `get(key)`: first binding for the key, if any. -/
def storeLookup : Store → String → Option JSRecord
  | [], _ => none
  | (k, v) :: rest, key => if k = key then some v else storeLookup rest key

/-- `set(key, value)` / IndexedDB `put`: replace the binding or append it. -/
def storePut : Store → String → JSRecord → Store
  | [], k, v => [(k, v)]
  | (k', v') :: rest, k, v =>
      if k' = k then (k, v) :: rest else (k', v') :: storePut rest k v

/-- Boolean membership of a key in a key list. -/
def keyMem : List String → String → Bool
  | [], _ => false
  | k :: rest, key => if k = key then true else keyMem rest key

/-- `remove(keys)`: drop every binding whose key is listed. -/
def removeKeys (st : Store) (keys : List String) : Store :=
  st.filter (fun kv => !(keyMem keys kv.1))

/-- IndexedDB `clearAllImages` (`store.clear()`): the bulk tier becomes empty. -/
def clearAllImages (_st : Store) : Store := []

/-- The keys currently present in a tier (`Object.keys(allData)`). -/
def keysOfStore (st : Store) : List String := st.map (fun kv => kv.1)

/-- Boolean list-prefix test used to embed JS `String.prototype.startsWith`. -/
def isPrefixList : List Char → List Char → Bool
  | [], _ => true
  | _ :: _, [] => false
  | a :: as, b :: bs => if a = b then isPrefixList as bs else false

/-- JS `key.startsWith(p)`. -/
def strHasPrefix (k p : String) : Bool := isPrefixList p.data k.data

/-! ## Page Agent: placeholder editing (content script) -/

/-- A `<textarea>` as seen by the content script: its value and selection. -/
structure TextAreaSt where
  value : List Char
  selStart : Nat
  selEnd : Nat
deriving DecidableEq

/-- `insertPlaceholder(textarea, text)`: splice `text` over the selection,
put the caret after it, and return the insertion position. -/
def insertPlaceholder (ta : TextAreaSt) (text : List Char) : TextAreaSt × Nat :=
  let start := ta.selStart
  let before := ta.value.take start
  let after := ta.value.drop ta.selEnd
  (⟨before ++ text ++ after, start + text.length, start + text.length⟩, start)

/-- JS `value.indexOf(needle, start)`: the least index `i ≥ start` at which
`needle` occurs in `hay`, if any. -/
def indexOfFrom (hay needle : List Char) (start : Nat) : Option Nat :=
  (List.range (hay.length + 1)).find?
    (fun i => decide (start ≤ i) && isPrefixList needle (hay.drop i))

/-- `removePlaceholder(textarea, placeholder, insertPosition)`: cut the first
occurrence found at or after the recorded position and move the caret there;
leave the buffer alone when the placeholder is not found. -/
def removePlaceholder (ta : TextAreaSt) (placeholder : List Char)
    (insertPosition : Nat) : TextAreaSt :=
  match indexOfFrom ta.value placeholder insertPosition with
  | some i =>
      ⟨ta.value.take i ++ ta.value.drop (i + placeholder.length), i, i⟩
  | none => ta

/-! ## Converter Cell: output file renaming (sandbox script) -/

/-- ASCII lower-casing of one character; the regex `/\.heic$/i` folds case
only within ASCII (JS non-unicode canonicalisation never folds a non-ASCII
character onto an ASCII one). -/
def asciiLower (c : Char) : Char :=
  if 'A' ≤ c ∧ c ≤ 'Z' then Char.ofNat (c.toNat + 32) else c

/-- Whether `/\.heic$/i` matches `name`: at least five characters and the
last five, lower-cased, spell `.heic`. -/
def heicRegexMatch (name : List Char) : Bool :=
  decide (5 ≤ name.length) &&
    decide ((name.drop (name.length - 5)).map asciiLower = ".heic".data)

/-- `fileName.replace(/\.heic$/i, '.jpg')` from the sandbox success reply. -/
def replaceHeicSuffix (name : List Char) : List Char :=
  if heicRegexMatch name then name.take (name.length - 5) ++ ".jpg".data
  else name

/-- The claim's own wording of the matching condition: the name ends in the
five characters `.heic` up to letter case. -/
def EndsInHeicCI (name : List Char) : Prop :=
  ∃ p s, name = p ++ s ∧ s.length = 5 ∧ s.map asciiLower = ".heic".data

example : replaceHeicSuffix "photo.HEIC".data = "photo.jpg".data := by decide
example : replaceHeicSuffix "a.heic.png".data = "a.heic.png".data := by decide
example : storeLookup (storePut [] "k" {}) "k" = some {} := by decide

/-! ## Converter Cell: error normalisation (sandbox `getErrorMessage`) -/

/-- A JS value as far as `getErrorMessage` inspects it.  The `error` field of
a plain object is a heap reference (`Nat` address) so that cyclic error
chains are expressible; `message : Option String` with `none` models a
missing (or falsy) `message` field; `rest` stands for the `JSON.stringify`
rendering of an object with neither field; `prim` covers `null`,
`undefined` and other non-object non-string primitives. -/
inductive JSVal where
  | str (s : String)
  | errObj (msg : String)
  | obj (message : Option String) (error : Option Nat) (rest : String)
  | prim
deriving DecidableEq

/-- Sandbox `getErrorMessage(error)`, embedded with explicit fuel: the source
recursion `getErrorMessage(error.error)` consumes one unit of fuel, every
other branch returns directly.  `none` means the recursion did not settle
within the given fuel. -/
def getErrorMessage (h : Nat → JSVal) : Nat → JSVal → Option String
  | 0, v =>
    match v with
    | .str s => some s
    | .errObj m => some m
    | .obj (some m) _ _ => some m
    | .obj none (some _) _ => none
    | .obj none none rest => some rest
    | .prim => some "Unknown error"
  | fuel + 1, v =>
    match v with
    | .str s => some s
    | .errObj m => some m
    | .obj (some m) _ _ => some m
    | .obj none (some e) _ => getErrorMessage h fuel (h e)
    | .obj none none rest => some rest
    | .prim => some "Unknown error"

/-- The call `getErrorMessage` never settles on this value: it loops through
the `error.error` unwrapping forever. -/
def GemDiverges (h : Nat → JSVal) (v : JSVal) : Prop :=
  ∀ fuel, getErrorMessage h fuel v = none

/-- Depth at which the `error`-chain of a value settles: zero for every
directly-returning branch, one more for each `error.error` unwrapping. -/
inductive GemSettles (h : Nat → JSVal) : JSVal → Nat → Prop where
  | strCase (s : String) : GemSettles h (.str s) 0
  | errCase (m : String) : GemSettles h (.errObj m) 0
  | msgCase (m : String) (e : Option Nat) (rest : String) :
      GemSettles h (.obj (some m) e rest) 0
  | stringifyCase (rest : String) : GemSettles h (.obj none none rest) 0
  | primCase : GemSettles h .prim 0
  | unwrapCase (e : Nat) (rest : String) (n : Nat) :
      GemSettles h (h e) n → GemSettles h (.obj none (some e) rest) (n + 1)

/-- A heap holding the single self-referential object `a` with `a.error = a`. -/
def cyclicHeap : Nat → JSVal := fun _ => .obj none (some 0) ""

example : getErrorMessage cyclicHeap 50 (cyclicHeap 0) = none := by decide
example : getErrorMessage cyclicHeap 3 (.str "decode error") = some "decode error" := by decide

/-! ## Relay Host: conversion queue (offscreen `processQueue`) -/

/-- Relay Host queue state.  `queue` and `isProcessing` are the source's
`conversionQueue` and `isProcessing`; `processed`, `enqueued` and
`activeDrains` are ghost fields recording the order of completed items,
the order of enqueued items, and how many drain loops are between the
`isProcessing = true` and `isProcessing = false` writes. -/
structure RelayQ where
  queue : List String
  isProcessing : Bool
  processed : List String
  enqueued : List String
  activeDrains : Nat
deriving DecidableEq

/-- Interleaving steps of `queueConversion`/`processQueue`.  A call to
`queueConversion` pushes the id and synchronously runs `processQueue` up to
its first await: if `isProcessing` is set the call returns at once,
otherwise it sets the flag and a drain loop becomes active.  An active
drain either shifts and fully processes the head item (one iteration of the
`while`, whose body is awaited to completion — success or failure — before
the next shift) or, on an empty queue, clears the flag and exits. -/
inductive RelayStep : RelayQ → RelayQ → Prop where
  | enqueueBusy (s : RelayQ) (id : String) (h : s.isProcessing = true) :
      RelayStep s { s with queue := s.queue ++ [id], enqueued := s.enqueued ++ [id] }
  | enqueueIdle (s : RelayQ) (id : String) (h : s.isProcessing = false) :
      RelayStep s { queue := s.queue ++ [id], isProcessing := true,
                    processed := s.processed, enqueued := s.enqueued ++ [id],
                    activeDrains := s.activeDrains + 1 }
  | drainItem (s : RelayQ) (id : String) (rest : List String)
      (hp : s.isProcessing = true) (hq : s.queue = id :: rest) :
      RelayStep s { s with queue := rest, processed := s.processed ++ [id] }
  | drainDone (s : RelayQ) (hp : s.isProcessing = true) (hq : s.queue = []) :
      RelayStep s { s with isProcessing := false, activeDrains := s.activeDrains - 1 }

/-- Initial offscreen state: empty queue, flag clear. -/
def relayInit : RelayQ := ⟨[], false, [], [], 0⟩

/-- States the Relay Host can reach from start-up. -/
inductive RelayReachable : RelayQ → Prop where
  | init : RelayReachable relayInit
  | step (s t : RelayQ) : RelayReachable s → RelayStep s t → RelayReachable t

/-! ## Converter Cell: busy flag (sandbox message handler) -/

/-- Converter Cell state.  `isConverting` is the source flag; `current`,
`inFlight`, `replies` and `dropped` are ghost fields for the request being
converted, the number of accepted-but-unfinished conversions, the
`CONVERT_RESULT` messages posted so far, and the ids of silently-dropped
duplicate requests. -/
structure CellSt where
  isConverting : Bool
  current : Option String
  inFlight : Nat
  replies : List (String × Bool)
  dropped : List String
deriving DecidableEq

/-- Observable events at the cell: a `CONVERT_HEIC` message arriving, and a
conversion finishing with success or failure. -/
inductive CellEv where
  | arrive (id : String)
  | finish (id : String) (ok : Bool)
deriving DecidableEq

/-- Steps of the sandbox message handler.  The busy check and the
`isConverting = true` write are one synchronous segment, so an arrival is
atomic; `finish` covers both the success reply and the catch-block failure
reply, each followed by the `finally` clearing the flag. -/
inductive CellStep : CellSt → CellEv → CellSt → Prop where
  | arriveBusy (s : CellSt) (id : String) (h : s.isConverting = true) :
      CellStep s (.arrive id) { s with dropped := s.dropped ++ [id] }
  | arriveIdle (s : CellSt) (id : String) (h : s.isConverting = false) :
      CellStep s (.arrive id)
        { s with isConverting := true, current := some id, inFlight := s.inFlight + 1 }
  | finishConv (s : CellSt) (id : String) (ok : Bool) (h : s.current = some id) :
      CellStep s (.finish id ok)
        { isConverting := false, current := none, inFlight := s.inFlight - 1,
          replies := s.replies ++ [(id, ok)], dropped := s.dropped }

/-- Initial cell state: idle. -/
def cellInit : CellSt := ⟨false, none, 0, [], []⟩

/-- States the Converter Cell can reach from load. -/
inductive CellReachable : CellSt → Prop where
  | init : CellReachable cellInit
  | step (s t : CellSt) (ev : CellEv) : CellReachable s → CellStep s ev t → CellReachable t

/-! ## Relay Host: per-item conversion (offscreen `processConversion`) -/

/-- The sandbox iframe slot in the offscreen document: `present` models
`sandboxFrame !== null`, `ready` models `sandboxReady`.  The Converter
Cell is Absent exactly when `present = false`. -/
structure SandboxSlot where
  present : Bool
  ready : Bool
deriving DecidableEq

/-- `resetSandbox()`: remove the iframe and clear the ready flag. -/
def resetSandbox : SandboxSlot := ⟨false, false⟩

/-- Net effect of `setupSandbox()`: a present-and-ready cell is reused
unchanged; otherwise (absent, or present but not ready, which is first
reset) a fresh iframe is created and — via the `SANDBOX_READY` message or
the 3 s success-by-default fallback — ends up marked ready. -/
def setupSandbox (sb : SandboxSlot) : SandboxSlot :=
  if sb.present && sb.ready then sb else ⟨true, true⟩

/-- Offscreen mutable state touched by one conversion: the sandbox slot, the
`pendingRequests` keys, and the IndexedDB bulk tier. -/
structure OffState where
  sandbox : SandboxSlot
  pending : List String
  bulk : Store
deriving DecidableEq

/-- `pendingRequests.delete(id)` (after the `set` of the same id). -/
def pendingErase (l : List String) (id : String) : List String :=
  l.filter (fun x => !(decide (x = id)))

/-- How the posted `CONVERT_HEIC` message resolves for the awaiting promise:
either the per-item timer fires first, or a `CONVERT_RESULT` reply with the
matching `requestId` arrives. -/
inductive CellResponse where
  | timeout
  | reply (success : Bool) (data fileName error : Option String)
deriving DecidableEq

/-- Runtime-dependent strings rendered into log/error messages: the elapsed
milliseconds at the timeout, `formatBytes(dataSize)`, the ISO timestamp and
the stack rendering used by the queue's catch block. -/
structure OffEnv where
  elapsedStr : String
  sizeStr : String
  nowIso : String
  stack : String

/-- The two-tier per-item deadline: 90 s for base64 payloads above 10 MB,
60 s otherwise. -/
def perItemTimeout (dataSize : Nat) : Nat :=
  if dataSize > 10 * 1024 * 1024 then 90000 else 60000

/-- Result of one `processConversion` call: normal return, or a thrown error
with its message. -/
inductive ConvOutcome where
  | ok
  | thrown (msg : String)
deriving DecidableEq

/-- `processConversion(requestId)`: read the request from the bulk tier,
ensure the sandbox, post `CONVERT_HEIC` and await the correlated reply
against the per-item timer.  On timeout the pending entry is deleted and
the promise rejects; on a failure reply the sandbox is reset and the error
is rethrown; on a success reply the result record is saved to the bulk
tier. -/
def processConversion (env : OffEnv) (s : OffState) (id : String)
    (resp : CellResponse) : OffState × ConvOutcome :=
  let requestKey := "request_" ++ id
  match storeLookup s.bulk requestKey with
  | none =>
      (s, .thrown "[Offscreen Step 1] No image data found in IndexedDB - data may have been cleared")
  | some rec =>
    match rec.data with
    | none =>
        (s, .thrown "[Offscreen Step 1] No image data found in IndexedDB - data may have been cleared")
    | some d =>
      let fileName := rec.fileName.getD "unknown"
      let timeoutMs := perItemTimeout d.length
      let s1 : OffState := { s with sandbox := setupSandbox s.sandbox }
      match resp with
      | .timeout =>
          ({ s1 with pending := pendingErase s1.pending id },
           .thrown ("[Offscreen Step 3] Sandbox timeout after " ++ env.elapsedStr ++
             "ms (limit: " ++ toString timeoutMs ++ "ms) - File: " ++ fileName ++
             ", Size: " ++ env.sizeStr))
      | .reply ok rdata rfn rerr =>
        let s2 : OffState := { s1 with pending := pendingErase s1.pending id }
        if ok then
          let resultData : JSRecord := { success := some true, data := rdata, fileName := rfn }
          ({ s2 with bulk := storePut s2.bulk ("result_" ++ id) resultData }, .ok)
        else
          ({ s2 with sandbox := resetSandbox },
           .thrown (rerr.getD "[Offscreen Step 3] Conversion failed in sandbox (unknown error)"))

/-- One iteration of the `processQueue` drain: run `processConversion` and,
if it threw, save the detailed failure record under `result_<id>` in the
bulk tier (`error`, `errorTime`, `errorStack`). -/
def processQueueItem (env : OffEnv) (s : OffState) (id : String)
    (resp : CellResponse) : OffState :=
  match processConversion env s id resp with
  | (s', .ok) => s'
  | (s', .thrown msg) =>
      let failData : JSRecord :=
        { error := some msg, errorTime := some env.nowIso, errorStack := some env.stack }
      { s' with bulk := storePut s'.bulk ("result_" ++ id) failData }

/-- The sandbox catch block's detailed failure message:
`[File: <name>, Size: <size>, Time: <t>ms] <normalised error>`. -/
def detailedErrorMsg (fileName sizeStr timeStr errorMsg : String) : String :=
  "[File: " ++ fileName ++ ", Size: " ++ sizeStr ++ ", Time: " ++ timeStr ++
    "ms] " ++ errorMsg

/-- The `CONVERT_RESULT` failure reply the sandbox posts from its catch
block: `success: false` and the detailed message wrapping the normalised
thrown value. -/
def sandboxCatchReply (h : Nat → JSVal) (fuel : Nat)
    (fileName sizeStr timeStr : String) (thrown : JSVal) : CellResponse :=
  .reply false none none
    (some (detailedErrorMsg fileName sizeStr timeStr
      ((getErrorMessage h fuel thrown).getD "Unknown error")))

/-! ## Dispatcher: cleanup sweep (background `cleanupAllData`) -/

/-- Whether the sweep removes signal-tier key `k` when the active request is
`id`: any key other than `request_<id>` that starts with `request_`,
`result_` or `convert_`. -/
def sweepRemovesKey (id k : String) : Bool :=
  (!(decide (k = "request_" ++ id))) &&
    (strHasPrefix k "request_" || strHasPrefix k "result_" || strHasPrefix k "convert_")

/-- `cleanupAllData(currentRequestId)`: read every signal-tier key, remove
the matching stale ones, and clear the whole IndexedDB bulk tier. -/
def cleanupAllData (id : String) (signal bulk : Store) : Store × Store :=
  let keysToRemove := (keysOfStore signal).filter (sweepRemovesKey id)
  (removeKeys signal keysToRemove, clearAllImages bulk)

/-! ## Dispatcher: result polling (background `performConversion`, step 6) -/

/-- Result of the Dispatcher's bulk-tier poll. -/
inductive DispatchPollRes where
  | found (k : Nat)
  | timedOut
  | fuelOut
deriving DecidableEq

/-- Outcome of the poll: its result, the signal tier afterwards, and the
bulk-tier keys it deleted. -/
structure DispatchOut where
  res : DispatchPollRes
  signal : Store
  bulkDeleted : List String
deriving DecidableEq

/-- The polling `while` of `performConversion`: at poll `k` (time `300 · k`
ms idealised) the loop runs while the elapsed time is below 60 000 ms;
`obs k` is what `getImage(result_<id>)` returns at that poll.  On a hit the
record is mirrored verbatim into the signal tier under the same key and
both bulk-tier records are deleted; when the deadline passes the loop falls
through to `throw new Error('Conversion timeout')` deleting nothing.  Fuel
is an embedding artifact; 200 polls are proved sufficient. -/
def dispatchPollGo (obs : Nat → Option JSRecord) (id : String) (signal : Store) :
    Nat → Nat → DispatchOut
  | 0, k =>
    if 300 * k < 60000 then
      match obs k with
      | some r =>
          ⟨.found k, storePut signal ("result_" ++ id) r,
           ["request_" ++ id, "result_" ++ id]⟩
      | none => ⟨.fuelOut, signal, []⟩
    else ⟨.timedOut, signal, []⟩
  | fuel + 1, k =>
    if 300 * k < 60000 then
      match obs k with
      | some r =>
          ⟨.found k, storePut signal ("result_" ++ id) r,
           ["request_" ++ id, "result_" ++ id]⟩
      | none => dispatchPollGo obs id signal fuel (k + 1)
    else ⟨.timedOut, signal, []⟩

/-- The Dispatcher poll from its start. -/
def performConversionPoll (obs : Nat → Option JSRecord) (id : String)
    (signal : Store) : DispatchOut :=
  dispatchPollGo obs id signal 200 0

/-! ## Page Agent: result polling (content `waitForResult`) -/

/-- Result of the Page Agent's signal-tier poll. -/
inductive WaitRes where
  | resolved (r : JSRecord)
  | timedOut (tMs : Nat)
  | ctxInvalid (k : Nat)
  | fuelOut
deriving DecidableEq

/-- `waitForResult`'s `checkResult` recursion: at poll `k` (time `500 · k` ms
idealised) it first checks the extension-runtime handle (`ctxOk k`),
rejecting immediately when invalid; then reads the signal tier (`obs k`),
resolving on a record; then rejects with `Conversion timeout` once the
elapsed time strictly exceeds 60 000 ms; otherwise it schedules the next
poll 500 ms later.  Fuel is an embedding artifact; 121 recursions are
proved sufficient. -/
def waitGo (ctxOk : Nat → Bool) (obs : Nat → Option JSRecord) :
    Nat → Nat → WaitRes
  | 0, k =>
    if ctxOk k then
      match obs k with
      | some r => .resolved r
      | none => if 500 * k > 60000 then .timedOut (500 * k) else .fuelOut
    else .ctxInvalid k
  | fuel + 1, k =>
    if ctxOk k then
      match obs k with
      | some r => .resolved r
      | none =>
          if 500 * k > 60000 then .timedOut (500 * k)
          else waitGo ctxOk obs fuel (k + 1)
    else .ctxInvalid k

/-- `waitForResult(requestId)` with the default 60 s timeout. -/
def waitForResult (ctxOk : Nat → Bool) (obs : Nat → Option JSRecord) : WaitRes :=
  waitGo ctxOk obs 121 0

/-! ## Helper lemmas -/

lemma storeLookup_put_self (st : Store) (k : String) (v : JSRecord) :
    storeLookup (storePut st k v) k = some v := by
  induction st with
  | nil => simp [storePut, storeLookup]
  | cons hd tl ih =>
    by_cases h : hd.1 = k
    · simp [storePut, h, storeLookup]
    · simp [storePut, h, storeLookup, ih]

/-! ## Claim theorems -/

/-- Claim C7: inserting the placeholder into "Comment: " at cursor 9 and then
removing it from the recorded insertion position restores the buffer and the
cursor exactly. -/
theorem placeholder_round_trip :
    (removePlaceholder (insertPlaceholder ⟨"Comment: ".data, 9, 9⟩ "![Converting x.heic...]()\n".data).1
        "![Converting x.heic...]()\n".data
        (insertPlaceholder ⟨"Comment: ".data, 9, 9⟩ "![Converting x.heic...]()\n".data).2 =
      (⟨"Comment: ".data, 9, 9⟩ : TextAreaSt)) ∧
    (insertPlaceholder ⟨"Comment: ".data, 9, 9⟩ "![Converting x.heic...]()\n".data).2 = 9 := by
  constructor
  · decide
  · decide

/-- Claim C8: the output file name of a successful Converter Cell reply is the
input name with a trailing `.heic` (matched case-insensitively, only at the
end) replaced by `.jpg`; names without that suffix are returned unchanged,
and the regex match coincides with the case-insensitive ends-with condition,
so a `.heic` occurring elsewhere is never touched (the prefix before the last
five characters is always preserved). -/
theorem rename_heic_suffix :
    (∀ p s : List Char, s.length = 5 → s.map asciiLower = ".heic".data →
        replaceHeicSuffix (p ++ s) = p ++ ".jpg".data) ∧
    (∀ name : List Char, heicRegexMatch name = false → replaceHeicSuffix name = name) ∧
    (∀ name : List Char, heicRegexMatch name = true ↔ EndsInHeicCI name) ∧
    (∀ name : List Char,
        (replaceHeicSuffix name).take (name.length - 5) = name.take (name.length - 5)) := by
  have hmatch : ∀ p s : List Char, s.length = 5 → s.map asciiLower = ".heic".data →
      heicRegexMatch (p ++ s) = true := by
    intro p s hlen hlow
    have hlenapp : (p ++ s).length = p.length + 5 := by simp [List.length_append, hlen]
    have hdrop : (p ++ s).drop ((p ++ s).length - 5) = s := by
      rw [hlenapp]
      have : p.length + 5 - 5 = p.length := by omega
      rw [this]
      exact List.drop_left p s
    simp [heicRegexMatch, hdrop, hlow, hlenapp]
  have hrepl : ∀ p s : List Char, s.length = 5 → s.map asciiLower = ".heic".data →
      replaceHeicSuffix (p ++ s) = p ++ ".jpg".data := by
    intro p s hlen hlow
    have hm := hmatch p s hlen hlow
    have hlenapp : (p ++ s).length = p.length + 5 := by simp [List.length_append, hlen]
    simp only [replaceHeicSuffix, hm, if_true, List.length_append]
    have h1 : p.length + s.length - 5 = p.length := by omega
    rw [h1, List.take_left]
  refine ⟨hrepl, ?_, ?_, ?_⟩
  · intro name h
    simp [replaceHeicSuffix, h]
  · intro name
    constructor
    · intro h
      have h5 : 5 ≤ name.length ∧ (name.drop (name.length - 5)).map asciiLower = ".heic".data := by
        simpa [heicRegexMatch] using h
      refine ⟨name.take (name.length - 5), name.drop (name.length - 5),
        (List.take_append_drop _ _).symm, ?_, h5.2⟩
      have := h5.1
      rw [List.length_drop]
      omega
    · rintro ⟨p, s, rfl, hlen, hlow⟩
      exact hmatch p s hlen hlow
  · intro name
    by_cases h : heicRegexMatch name = true
    · have h5 : 5 ≤ name.length := by
        have := h
        simp [heicRegexMatch] at this
        exact this.1
      have hlen : (name.take (name.length - 5)).length = name.length - 5 := by
        rw [List.length_take]
        omega
      simp only [replaceHeicSuffix, h, if_true]
      exact List.take_left' hlen
    · have hb : heicRegexMatch name = false := by simpa using h
      simp [replaceHeicSuffix, hb]

/-- Witness for C8 at concrete inputs: `photo.HEiC` is renamed to `photo.jpg`
and `photo.png` is returned unchanged. -/
theorem rename_heic_suffix_witness :
    (".HEiC".data.length = 5 ∧ ".HEiC".data.map asciiLower = ".heic".data ∧
      replaceHeicSuffix ("photo".data ++ ".HEiC".data) = "photo".data ++ ".jpg".data) ∧
    (heicRegexMatch "photo.png".data = false ∧
      replaceHeicSuffix "photo.png".data = "photo.png".data) :=
  ⟨⟨by decide, by decide,
      rename_heic_suffix.1 "photo".data ".HEiC".data (by decide) (by decide)⟩,
   ⟨by decide, rename_heic_suffix.2.1 "photo.png".data (by decide)⟩⟩

/-- Claim C1: in every reachable Relay Host state at most one queue-drain
loop is active — the count of active drains is exactly one when
`isProcessing` is set and zero otherwise — and the ids completed so far
followed by the queued ids equal the enqueue order, so items are processed
strictly sequentially in FIFO order and the Converter Cell is never driven
by two conversions at once. -/
theorem relay_single_drain_fifo (s : RelayQ) (h : RelayReachable s) :
    s.activeDrains ≤ 1 ∧
    s.activeDrains = (if s.isProcessing then 1 else 0) ∧
    s.enqueued = s.processed ++ s.queue := by
  induction h with
  | init => simp [relayInit]
  | step s t hr hstep ih =>
    obtain ⟨ihle, ihcount, ihfifo⟩ := ih
    cases hstep with
    | enqueueBusy id hb =>
      refine ⟨ihle, by simpa using ihcount, ?_⟩
      simp [ihfifo, List.append_assoc]
    | enqueueIdle id hb =>
      rw [hb] at ihcount
      simp at ihcount
      refine ⟨by simp [ihcount], by simp [ihcount], ?_⟩
      simp [ihfifo, List.append_assoc]
    | drainItem id rest hp hq =>
      refine ⟨ihle, by simpa using ihcount, ?_⟩
      simp [ihfifo, hq, List.append_assoc]
    | drainDone hp hq =>
      rw [hp] at ihcount
      simp at ihcount
      refine ⟨by simp [ihcount], by simp [ihcount], ?_⟩
      simp [ihfifo, hq]

/-- Witness for C1: the state reached by enqueuing "a" on the idle host and
draining it satisfies the invariant. -/
theorem relay_single_drain_fifo_witness :
    (⟨[], true, ["a"], ["a"], 1⟩ : RelayQ).activeDrains ≤ 1 ∧
    (⟨[], true, ["a"], ["a"], 1⟩ : RelayQ).activeDrains =
      (if (⟨[], true, ["a"], ["a"], 1⟩ : RelayQ).isProcessing then 1 else 0) ∧
    (⟨[], true, ["a"], ["a"], 1⟩ : RelayQ).enqueued =
      (⟨[], true, ["a"], ["a"], 1⟩ : RelayQ).processed ++ (⟨[], true, ["a"], ["a"], 1⟩ : RelayQ).queue :=
  relay_single_drain_fifo _
    (RelayReachable.step _ _
      (RelayReachable.step _ _ RelayReachable.init (RelayStep.enqueueIdle relayInit "a" rfl))
      (RelayStep.drainItem _ "a" [] rfl rfl))

/-- Claim C10: in every reachable Converter Cell state at most one conversion
is in flight and the `isConverting` flag tracks it exactly; an arrival while
the flag is set only records the id as dropped — no `CONVERT_RESULT` reply
is ever posted for it and nothing else changes; and finishing a conversion
clears the flag on the success path and the failure path alike. -/
theorem cell_single_conversion :
    (∀ s : CellSt, CellReachable s →
        s.inFlight ≤ 1 ∧ s.inFlight = (if s.isConverting then 1 else 0) ∧
        (s.isConverting = false → s.current = none)) ∧
    (∀ (s t : CellSt) (id : String), s.isConverting = true →
        CellStep s (.arrive id) t → t = { s with dropped := s.dropped ++ [id] }) ∧
    (∀ (s t : CellSt) (id : String) (ok : Bool),
        CellStep s (.finish id ok) t → t.isConverting = false) := by
  refine ⟨?_, ?_, ?_⟩
  · intro s h
    induction h with
    | init => simp [cellInit]
    | step s t ev hr hstep ih =>
      obtain ⟨ihle, ihcount, ihcur⟩ := ih
      cases hstep with
      | arriveBusy id hb =>
        exact ⟨ihle, by simpa using ihcount, by simp [hb]⟩
      | arriveIdle id hb =>
        rw [hb] at ihcount
        simp at ihcount
        exact ⟨by simp [ihcount], by simp [ihcount], by simp⟩
      | finishConv id ok hc =>
        have hconv : s.isConverting = true := by
          by_contra hfalse
          have : s.isConverting = false := by simpa using hfalse
          rw [ihcur this] at hc
          exact Option.noConfusion hc
        rw [hconv] at ihcount
        simp at ihcount
        exact ⟨by simp [ihcount], by simp [ihcount], by simp⟩
  · intro s t id hb hstep
    cases hstep with
    | arriveBusy id hb' => rfl
    | arriveIdle id hb' => rw [hb'] at hb; exact Bool.noConfusion hb
  · intro s t id ok hstep
    cases hstep with
    | finishConv id hc => rfl

/-- Witness for C10: the busy state reached by accepting "a" satisfies the
invariant; the duplicate arrival of "b" there is recorded as dropped with no
reply; and a failure finish clears the flag. -/
theorem cell_single_conversion_witness :
    ((⟨true, some "a", 1, [], []⟩ : CellSt).inFlight ≤ 1 ∧
      (⟨true, some "a", 1, [], []⟩ : CellSt).inFlight =
        (if (⟨true, some "a", 1, [], []⟩ : CellSt).isConverting then 1 else 0) ∧
      ((⟨true, some "a", 1, [], []⟩ : CellSt).isConverting = false →
        (⟨true, some "a", 1, [], []⟩ : CellSt).current = none)) ∧
    ((⟨true, some "a", 1, [], ["b"]⟩ : CellSt) =
      { (⟨true, some "a", 1, [], []⟩ : CellSt) with
          dropped := (⟨true, some "a", 1, [], []⟩ : CellSt).dropped ++ ["b"] }) ∧
    (⟨false, none, 0, [("a", false)], []⟩ : CellSt).isConverting = false :=
  ⟨cell_single_conversion.1 _
      (CellReachable.step _ _ _ CellReachable.init (CellStep.arriveIdle cellInit "a" rfl)),
   cell_single_conversion.2.1 ⟨true, some "a", 1, [], []⟩ _ "b" rfl
     (CellStep.arriveBusy ⟨true, some "a", 1, [], []⟩ "b" rfl),
   cell_single_conversion.2.2 ⟨true, some "a", 1, [], []⟩ _ "a" false
     (CellStep.finishConv ⟨true, some "a", 1, [], []⟩ "a" false rfl)⟩

/-- Counterexample to claim C2: in a warm offscreen state holding the request
for "r1", the per-item timeout path of `processConversion` removes the
pending entry and rejects, but the sandbox iframe is NOT removed — the slot
is still present and ready, not Absent as the claim requires. -/
theorem timeout_no_teardown_cex :
    (processConversion ⟨"61234", "2.00 MB", "t0", "st"⟩
        ⟨⟨true, true⟩, ["r1"], [("request_r1", { data := some "d", fileName := some "a.heic" })]⟩
        "r1" CellResponse.timeout).1.sandbox = (⟨true, true⟩ : SandboxSlot) ∧
    ¬ ((processConversion ⟨"61234", "2.00 MB", "t0", "st"⟩
        ⟨⟨true, true⟩, ["r1"], [("request_r1", { data := some "d", fileName := some "a.heic" })]⟩
        "r1" CellResponse.timeout).1.sandbox.present = false) ∧
    (processConversion ⟨"61234", "2.00 MB", "t0", "st"⟩
        ⟨⟨true, true⟩, ["r1"], [("request_r1", { data := some "d", fileName := some "a.heic" })]⟩
        "r1" CellResponse.timeout).1.pending = [] := by
  refine ⟨by decide, by decide, by decide⟩

/-- Claim C2 as amended: when the per-item timeout fires, the pending
correlation entry for the requestId is removed and the call rejects, but
the Converter Cell is not torn down — the sandbox slot keeps exactly the
state `setupSandbox` left it in (so a warm cell stays present and ready),
the bulk tier is untouched, and `resetSandbox` runs only on a
`success: false` reply. -/
theorem timeout_drops_pending_keeps_sandbox (env : OffEnv) (s : OffState)
    (id : String) (rec : JSRecord) (d : String)
    (hreq : storeLookup s.bulk ("request_" ++ id) = some rec)
    (hdata : rec.data = some d) :
    (processConversion env s id CellResponse.timeout).1.sandbox = setupSandbox s.sandbox ∧
    (processConversion env s id CellResponse.timeout).1.pending = pendingErase s.pending id ∧
    (processConversion env s id CellResponse.timeout).1.bulk = s.bulk ∧
    ∃ msg, (processConversion env s id CellResponse.timeout).2 = ConvOutcome.thrown msg := by
  simp [processConversion, hreq, hdata]

/-- Witness for the amended C2 at a concrete warm state. -/
theorem timeout_drops_pending_keeps_sandbox_witness :
    (processConversion ⟨"61234", "2.00 MB", "t0", "st"⟩
        ⟨⟨true, true⟩, ["r1"], [("request_r1", { data := some "d", fileName := some "a.heic" })]⟩
        "r1" CellResponse.timeout).1.sandbox =
      setupSandbox (⟨true, true⟩ : SandboxSlot) ∧
    (processConversion ⟨"61234", "2.00 MB", "t0", "st"⟩
        ⟨⟨true, true⟩, ["r1"], [("request_r1", { data := some "d", fileName := some "a.heic" })]⟩
        "r1" CellResponse.timeout).1.pending = pendingErase ["r1"] "r1" ∧
    (processConversion ⟨"61234", "2.00 MB", "t0", "st"⟩
        ⟨⟨true, true⟩, ["r1"], [("request_r1", { data := some "d", fileName := some "a.heic" })]⟩
        "r1" CellResponse.timeout).1.bulk =
      [("request_r1", { data := some "d", fileName := some "a.heic" })] ∧
    ∃ msg, (processConversion ⟨"61234", "2.00 MB", "t0", "st"⟩
        ⟨⟨true, true⟩, ["r1"], [("request_r1", { data := some "d", fileName := some "a.heic" })]⟩
        "r1" CellResponse.timeout).2 = ConvOutcome.thrown msg :=
  timeout_drops_pending_keeps_sandbox ⟨"61234", "2.00 MB", "t0", "st"⟩
    ⟨⟨true, true⟩, ["r1"], [("request_r1", { data := some "d", fileName := some "a.heic" })]⟩
    "r1" { data := some "d", fileName := some "a.heic" } "d" (by decide) rfl

/-- The result record claim C4 expects under `result_r2`: exactly
`success: false` with the bare error string `decode error`. -/
def claimedDecodeErrorRecord : JSRecord :=
  { success := some false, error := some "decode error" }

/-- Counterexample to claim C4: run the r2 scenario — the sandbox throws the
string "decode error", its catch block posts the failure reply, and the
queue's catch saves the result — and the bulk-tier record under `result_r2`
is not the claimed record: it has no `success` field at all and its error
string is the detailed message, not the bare "decode error". -/
theorem decode_error_record_cex :
    storeLookup (processQueueItem ⟨"5123", "2.00 MB", "2026-01-01T00:00:00.000Z", "stacktrace"⟩
        ⟨⟨true, true⟩, [], [("request_r2", { data := some "d", fileName := some "r2.heic" })]⟩
        "r2" (sandboxCatchReply (fun _ => JSVal.prim) 3 "r2.heic" "2.00 MB" "5123"
          (JSVal.str "decode error"))).bulk "result_r2" =
      some { error := some "[File: r2.heic, Size: 2.00 MB, Time: 5123ms] decode error",
             errorTime := some "2026-01-01T00:00:00.000Z",
             errorStack := some "stacktrace" } ∧
    ¬ (storeLookup (processQueueItem ⟨"5123", "2.00 MB", "2026-01-01T00:00:00.000Z", "stacktrace"⟩
        ⟨⟨true, true⟩, [], [("request_r2", { data := some "d", fileName := some "r2.heic" })]⟩
        "r2" (sandboxCatchReply (fun _ => JSVal.prim) 3 "r2.heic" "2.00 MB" "5123"
          (JSVal.str "decode error"))).bulk "result_r2" =
      some claimedDecodeErrorRecord) := by
  refine ⟨by decide, by decide⟩

/-- Claim C4 as amended: when the Converter Cell throws "decode error" for
r2, the cell is torn down (the sandbox slot returns to Absent), and the
record the Relay Host writes to the bulk tier under `result_r2` is the
catch-block failure record — `error` set to the detailed message
`[File: <name>, Size: <size>, Time: <t>ms] decode error` plus `errorTime`
and `errorStack`, with no `success` field. -/
theorem decode_error_failure_path (env : OffEnv) (sb : SandboxSlot)
    (d fn sizeStr timeStr : String) :
    (processQueueItem env ⟨sb, [], [("request_r2", { data := some d, fileName := some fn })]⟩
        "r2" (sandboxCatchReply (fun _ => JSVal.prim) 1 fn sizeStr timeStr
          (JSVal.str "decode error"))).sandbox = resetSandbox ∧
    storeLookup (processQueueItem env
        ⟨sb, [], [("request_r2", { data := some d, fileName := some fn })]⟩
        "r2" (sandboxCatchReply (fun _ => JSVal.prim) 1 fn sizeStr timeStr
          (JSVal.str "decode error"))).bulk "result_r2" =
      some { error := some (detailedErrorMsg fn sizeStr timeStr "decode error"),
             errorTime := some env.nowIso,
             errorStack := some env.stack } := by
  have hlook : storeLookup
      ([("request_r2", { data := some d, fileName := some fn })] : Store) "request_r2" =
      some { data := some d, fileName := some fn } := by
    simp [storeLookup]
  simp only [processQueueItem, processConversion, sandboxCatchReply, getErrorMessage,
    Option.getD, hlook]
  refine ⟨rfl, ?_⟩
  exact storeLookup_put_self _ _ _

lemma keyMem_filter (p : String → Bool) (key : String) :
    ∀ L : List String, keyMem (L.filter p) key = (p key && keyMem L key) := by
  intro L
  induction L with
  | nil => simp [keyMem]
  | cons a rest ih =>
    by_cases hak : a = key
    · subst hak
      cases hpa : p a
      · simp [List.filter, hpa, keyMem, ih, hpa]
      · simp [List.filter, hpa, keyMem]
    · cases hpa : p a
      · simp [List.filter, hpa, keyMem, hak, ih]
      · simp [List.filter, hpa, keyMem, hak, ih]

lemma keyMem_keysOfStore :
    ∀ (st : Store) (kv : String × JSRecord), kv ∈ st →
      keyMem (keysOfStore st) kv.1 = true := by
  intro st
  induction st with
  | nil => intro kv h; cases h
  | cons hd tl ih =>
    intro kv h
    cases h with
    | head => simp [keysOfStore, keyMem]
    | tail b h2 =>
      by_cases hk : hd.1 = kv.1
      · simp [keysOfStore, keyMem, hk]
      · simpa [keysOfStore, keyMem, hk] using ih kv h2

lemma storeLookup_filter_key (q : String → Bool) (st : Store) (k : String) :
    storeLookup (st.filter (fun kv => q kv.1)) k =
      (if q k then storeLookup st k else none) := by
  induction st with
  | nil => simp [storeLookup]
  | cons hd tl ih =>
    by_cases hk : hd.1 = k
    · subst hk
      cases hq : q hd.1
      · simp [List.filter, hq, storeLookup, ih]
      · simp [List.filter, hq, storeLookup]
    · cases hq : q hd.1
      · simp [List.filter, hq, storeLookup, hk, ih]
      · simp [List.filter, hq, storeLookup, hk, ih]

lemma isPrefixList_append (p rest : List Char) : isPrefixList p (p ++ rest) = true := by
  induction p with
  | nil => simp [isPrefixList]
  | cons a as ih => simp [isPrefixList, ih]

/-- Counterexample to claim C3: sweep for active id "100" on a signal tier
holding `request_100`, `result_100` and a stale `request_99`, with the bulk
tier holding `request_100`.  The sweep removes the signal-tier `result_100`
record (the claim says every `result_R` record is left unchanged) and also
empties the bulk tier, deleting the bulk `request_100`. -/
theorem cleanup_sweep_cex :
    storeLookup ([("request_100", { data := some "d", fileName := some "a.heic" }),
        ("result_100", { success := some true, data := some "x" }),
        ("request_99", { data := some "old" })] : Store) "result_100" =
      some { success := some true, data := some "x" } ∧
    (cleanupAllData "100"
        [("request_100", { data := some "d", fileName := some "a.heic" }),
         ("result_100", { success := some true, data := some "x" }),
         ("request_99", { data := some "old" })]
        [("request_100", { data := some "d", fileName := some "a.heic" })]) =
      ([("request_100", { data := some "d", fileName := some "a.heic" })], []) ∧
    storeLookup (cleanupAllData "100"
        [("request_100", { data := some "d", fileName := some "a.heic" }),
         ("result_100", { success := some true, data := some "x" }),
         ("request_99", { data := some "old" })]
        [("request_100", { data := some "d", fileName := some "a.heic" })]).1 "result_100" =
      none ∧
    storeLookup (cleanupAllData "100"
        [("request_100", { data := some "d", fileName := some "a.heic" }),
         ("result_100", { success := some true, data := some "x" }),
         ("request_99", { data := some "old" })]
        [("request_100", { data := some "d", fileName := some "a.heic" })]).2 "request_100" =
      none := by
  refine ⟨by decide, by decide, by decide, by decide⟩

/-- Claim C3 as amended: the sweep keeps exactly the signal-tier records
whose key fails `sweepRemovesKey` — every key other than `request_<R>` with
prefix `request_`, `result_` or `convert_` is removed, so stale entries of
other ids are removed but `result_<R>` is removed too, while `request_<R>`
itself survives; and the bulk tier is cleared entirely, R's own entries
included. -/
theorem cleanup_sweep_characterization :
    (∀ (id : String) (signal bulk : Store) (k : String),
        storeLookup (cleanupAllData id signal bulk).1 k =
          (if sweepRemovesKey id k then none else storeLookup signal k)) ∧
    (∀ (id : String) (signal bulk : Store), (cleanupAllData id signal bulk).2 = []) ∧
    (∀ id : String, sweepRemovesKey id ("request_" ++ id) = false) ∧
    (∀ id : String, sweepRemovesKey id ("result_" ++ id) = true) := by
  refine ⟨?_, ?_, ?_, ?_⟩
  · intro id signal bulk k
    have hcongr : removeKeys signal ((keysOfStore signal).filter (sweepRemovesKey id)) =
        signal.filter (fun kv => !(sweepRemovesKey id kv.1)) := by
      apply List.filter_congr
      intro kv hmem
      rw [keyMem_filter, keyMem_keysOfStore signal kv hmem]
      simp
    show storeLookup (removeKeys signal ((keysOfStore signal).filter (sweepRemovesKey id))) k = _
    rw [hcongr, storeLookup_filter_key (fun key => !(sweepRemovesKey id key)) signal k]
    cases hbad : sweepRemovesKey id k
    · simp
    · simp
  · intro id signal bulk
    rfl
  · intro id
    simp [sweepRemovesKey]
  · intro id
    have hne : ("result_" ++ id) ≠ ("request_" ++ id) := by
      intro h
      have hlen := congrArg String.length h
      simp [String.length_append] at hlen
      exact absurd hlen (by decide)
    have hpre : strHasPrefix ("result_" ++ id) "result_" = true := by
      show isPrefixList "result_".data ("result_" ++ id).data = true
      rw [String.data_append]
      exact isPrefixList_append _ _
    simp [sweepRemovesKey, hne, hpre]

lemma dispatchPollGo_timeout (obs : Nat → Option JSRecord) (id : String) (signal : Store) :
    ∀ fuel k, (∀ j, j < 200 → obs j = none) → 200 ≤ fuel + k →
      dispatchPollGo obs id signal fuel k = ⟨.timedOut, signal, []⟩ := by
  intro fuel
  induction fuel with
  | zero =>
    intro k hobs hk
    have hcond : ¬ (300 * k < 60000) := by omega
    simp [dispatchPollGo, hcond]
  | succ fuel ih =>
    intro k hobs hk
    by_cases hcond : 300 * k < 60000
    · have hklt : k < 200 := by omega
      simp [dispatchPollGo, hcond, hobs k hklt]
      exact ih (k + 1) hobs (by omega)
    · simp [dispatchPollGo, hcond]

lemma dispatchPollGo_found (obs : Nat → Option JSRecord) (id : String) (signal : Store)
    (k : Nat) (r : JSRecord) (hk : k < 200) (hbefore : ∀ j, j < k → obs j = none)
    (hit : obs k = some r) :
    ∀ fuel k0, k0 ≤ k → 200 ≤ fuel + k0 →
      dispatchPollGo obs id signal fuel k0 =
        ⟨.found k, storePut signal ("result_" ++ id) r,
         ["request_" ++ id, "result_" ++ id]⟩ := by
  intro fuel
  induction fuel with
  | zero =>
    intro k0 hle hfuel
    omega
  | succ fuel ih =>
    intro k0 hle hfuel
    have hcond : 300 * k0 < 60000 := by omega
    by_cases heq : k0 = k
    · subst heq
      simp [dispatchPollGo, hcond, hit]
    · have hlt : k0 < k := by omega
      simp [dispatchPollGo, hcond, hbefore k0 hlt]
      exact ih (k0 + 1) (by omega) (by omega)

lemma dispatchPollGo_no_fuelOut (obs : Nat → Option JSRecord) (id : String) (signal : Store) :
    ∀ fuel k, 200 ≤ fuel + k →
      (dispatchPollGo obs id signal fuel k).res ≠ DispatchPollRes.fuelOut := by
  intro fuel
  induction fuel with
  | zero =>
    intro k hk
    have hcond : ¬ (300 * k < 60000) := by omega
    simp [dispatchPollGo, hcond]
  | succ fuel ih =>
    intro k hk
    by_cases hcond : 300 * k < 60000
    · cases hobs : obs k
      · simp [dispatchPollGo, hcond, hobs]
        exact ih (k + 1) (by omega)
      · simp [dispatchPollGo, hcond, hobs]
    · simp [dispatchPollGo, hcond]

/-- Claim C5: the Dispatcher's bulk-tier poll (300 ms interval, 60 s
deadline, so polls 0..199).  When a result record appears at poll `k < 200`
it is mirrored verbatim into the signal tier under the same `result_<id>`
key and both bulk-tier records (`request_<id>` and `result_<id>`) are
deleted; when no result appears within the deadline the loop surfaces the
Timeout failure, leaves the signal tier unchanged and deletes neither
bulk-tier record; and the poll never runs out of fuel. -/
theorem dispatcher_poll_mirror_delete :
    (∀ (obs : Nat → Option JSRecord) (id : String) (signal : Store),
        (∀ j, j < 200 → obs j = none) →
        performConversionPoll obs id signal = ⟨.timedOut, signal, []⟩) ∧
    (∀ (obs : Nat → Option JSRecord) (id : String) (signal : Store) (k : Nat) (r : JSRecord),
        k < 200 → (∀ j, j < k → obs j = none) → obs k = some r →
        performConversionPoll obs id signal =
          ⟨.found k, storePut signal ("result_" ++ id) r,
           ["request_" ++ id, "result_" ++ id]⟩) ∧
    (∀ (obs : Nat → Option JSRecord) (id : String) (signal : Store),
        (performConversionPoll obs id signal).res ≠ DispatchPollRes.fuelOut) := by
  refine ⟨?_, ?_, ?_⟩
  · intro obs id signal hobs
    exact dispatchPollGo_timeout obs id signal 200 0 hobs (by omega)
  · intro obs id signal k r hk hbefore hit
    exact dispatchPollGo_found obs id signal k r hk hbefore hit 200 0 (by omega) (by omega)
  · intro obs id signal
    exact dispatchPollGo_no_fuelOut obs id signal 200 0 (by omega)

/-- Witness for C5: with no result ever appearing the poll times out leaving
the stores alone, and with a result appearing at poll 2 it mirrors the
record and deletes both bulk keys. -/
theorem dispatcher_poll_mirror_delete_witness :
    performConversionPoll (fun _ => none) "7" [("request_7", { data := some "d" })] =
      ⟨.timedOut, [("request_7", { data := some "d" })], []⟩ ∧
    performConversionPoll
        (fun j => if j = 2 then some { success := some true, data := some "out" } else none)
        "7" [] =
      ⟨.found 2, storePut [] "result_7" { success := some true, data := some "out" },
       ["request_7", "result_7"]⟩ :=
  ⟨dispatcher_poll_mirror_delete.1 (fun _ => none) "7"
      [("request_7", { data := some "d" })] (fun j hj => rfl),
   dispatcher_poll_mirror_delete.2.1
      (fun j => if j = 2 then some { success := some true, data := some "out" } else none)
      "7" [] 2 { success := some true, data := some "out" } (by omega)
      (by decide) (by decide)⟩

lemma waitGo_no_fuelOut (ctxOk : Nat → Bool) (obs : Nat → Option JSRecord) :
    ∀ fuel k, 121 ≤ fuel + k →
      waitGo ctxOk obs fuel k ≠ WaitRes.fuelOut := by
  intro fuel
  induction fuel with
  | zero =>
    intro k hk
    have hdl : 500 * k > 60000 := by omega
    cases hctx : ctxOk k
    · simp [waitGo, hctx]
    · cases hobs : obs k
      · simp [waitGo, hctx, hobs, hdl]
      · simp [waitGo, hctx, hobs]
  | succ fuel ih =>
    intro k hk
    cases hctx : ctxOk k
    · simp [waitGo, hctx]
    · cases hobs : obs k
      · by_cases hdl : 500 * k > 60000
        · simp [waitGo, hctx, hobs, hdl]
        · simp [waitGo, hctx, hobs, hdl]
          exact ih (k + 1) (by omega)
      · simp [waitGo, hctx, hobs]

lemma waitGo_resolved (ctxOk : Nat → Bool) (obs : Nat → Option JSRecord)
    (k : Nat) (r : JSRecord) (hk : k ≤ 121)
    (hbefore : ∀ j, j < k → ctxOk j = true ∧ obs j = none)
    (hctx : ctxOk k = true) (hit : obs k = some r) :
    ∀ fuel k0, k0 ≤ k → 121 ≤ fuel + k0 →
      waitGo ctxOk obs fuel k0 = WaitRes.resolved r := by
  intro fuel
  induction fuel with
  | zero =>
    intro k0 hle hfuel
    have heq : k0 = k := by omega
    subst heq
    simp [waitGo, hctx, hit]
  | succ fuel ih =>
    intro k0 hle hfuel
    by_cases heq : k0 = k
    · subst heq
      simp [waitGo, hctx, hit]
    · have hlt : k0 < k := by omega
      obtain ⟨hc, ho⟩ := hbefore k0 hlt
      have hdl : ¬ (500 * k0 > 60000) := by omega
      simp [waitGo, hc, ho, hdl]
      exact ih (k0 + 1) (by omega) (by omega)

lemma waitGo_timeout (ctxOk : Nat → Bool) (obs : Nat → Option JSRecord)
    (hall : ∀ j, j ≤ 121 → ctxOk j = true ∧ obs j = none) :
    ∀ fuel k, fuel + k = 121 →
      waitGo ctxOk obs fuel k = WaitRes.timedOut 60500 := by
  intro fuel
  induction fuel with
  | zero =>
    intro k hk
    have heq : k = 121 := by omega
    subst heq
    obtain ⟨hc, ho⟩ := hall 121 (by omega)
    simp [waitGo, hc, ho]
  | succ fuel ih =>
    intro k hk
    obtain ⟨hc, ho⟩ := hall k (by omega)
    have hdl : ¬ (500 * k > 60000) := by omega
    simp [waitGo, hc, ho, hdl]
    exact ih (k + 1) (by omega)

lemma waitGo_ctxInvalid (ctxOk : Nat → Bool) (obs : Nat → Option JSRecord)
    (k : Nat) (hk : k ≤ 121)
    (hbefore : ∀ j, j < k → ctxOk j = true ∧ obs j = none)
    (hctx : ctxOk k = false) :
    ∀ fuel k0, k0 ≤ k → 121 ≤ fuel + k0 →
      waitGo ctxOk obs fuel k0 = WaitRes.ctxInvalid k := by
  intro fuel
  induction fuel with
  | zero =>
    intro k0 hle hfuel
    have heq : k0 = k := by omega
    subst heq
    simp [waitGo, hctx]
  | succ fuel ih =>
    intro k0 hle hfuel
    by_cases heq : k0 = k
    · subst heq
      simp [waitGo, hctx]
    · have hlt : k0 < k := by omega
      obtain ⟨hc, ho⟩ := hbefore k0 hlt
      have hdl : ¬ (500 * k0 > 60000) := by omega
      simp [waitGo, hc, ho, hdl]
      exact ih (k0 + 1) (by omega) (by omega)

/-- Counterexample to claim C6: with the context always valid and no result
ever stored, `waitForResult` rejects with the timeout at poll 121, i.e. at
60 500 ms in the idealised 500 ms schedule — strictly later than the 60 s
deadline, because the loop only rejects once the elapsed time exceeds
60 000 ms and the first such poll is at 60 500 ms. -/
theorem page_poll_deadline_cex :
    waitForResult (fun _ => true) (fun _ => none) = WaitRes.timedOut 60500 ∧
    ¬ (60500 ≤ 60000) := by
  refine ⟨by decide, by decide⟩

/-- Claim C6 as amended: Page Agent polling always terminates — the fuel
bound of 121 polls is never exhausted; it resolves with the stored record at
the first poll where one exists; when no result ever appears it rejects
with the timeout at the first poll strictly after the 60 s deadline
(60 500 ms idealised — no later than the deadline plus one 500 ms
interval); and an invalid extension-runtime handle, checked before the
storage read of each poll, rejects immediately at that poll. -/
theorem page_poll_terminates :
    (∀ (ctxOk : Nat → Bool) (obs : Nat → Option JSRecord),
        waitForResult ctxOk obs ≠ WaitRes.fuelOut) ∧
    (∀ (ctxOk : Nat → Bool) (obs : Nat → Option JSRecord) (k : Nat) (r : JSRecord),
        k ≤ 121 → (∀ j, j < k → ctxOk j = true ∧ obs j = none) →
        ctxOk k = true → obs k = some r →
        waitForResult ctxOk obs = WaitRes.resolved r) ∧
    (∀ (ctxOk : Nat → Bool) (obs : Nat → Option JSRecord),
        (∀ j, j ≤ 121 → ctxOk j = true ∧ obs j = none) →
        waitForResult ctxOk obs = WaitRes.timedOut 60500 ∧
          60000 < 60500 ∧ 60500 ≤ 60000 + 500) ∧
    (∀ (ctxOk : Nat → Bool) (obs : Nat → Option JSRecord) (k : Nat),
        k ≤ 121 → (∀ j, j < k → ctxOk j = true ∧ obs j = none) →
        ctxOk k = false →
        waitForResult ctxOk obs = WaitRes.ctxInvalid k) := by
  refine ⟨?_, ?_, ?_, ?_⟩
  · intro ctxOk obs
    exact waitGo_no_fuelOut ctxOk obs 121 0 (by omega)
  · intro ctxOk obs k r hk hbefore hctx hit
    exact waitGo_resolved ctxOk obs k r hk hbefore hctx hit 121 0 (by omega) (by omega)
  · intro ctxOk obs hall
    exact ⟨waitGo_timeout ctxOk obs hall 121 0 (by omega), by omega, by omega⟩
  · intro ctxOk obs k hk hbefore hctx
    exact waitGo_ctxInvalid ctxOk obs k hk hbefore hctx 121 0 (by omega) (by omega)

/-- Witness for the amended C6: a result stored at poll 1 resolves, and an
invalidated context at poll 0 rejects immediately. -/
theorem page_poll_terminates_witness :
    waitForResult (fun _ => true)
        (fun j => if j = 1 then some { success := some true, data := some "out" } else none) =
      WaitRes.resolved { success := some true, data := some "out" } ∧
    waitForResult (fun _ => false) (fun _ => none) = WaitRes.ctxInvalid 0 :=
  ⟨page_poll_terminates.2.1 (fun _ => true)
      (fun j => if j = 1 then some { success := some true, data := some "out" } else none)
      1 { success := some true, data := some "out" } (by omega) (by decide) rfl (by decide),
   page_poll_terminates.2.2.2 (fun _ => false) (fun _ => none) 0 (by omega)
      (fun j hj => absurd hj (by omega)) rfl⟩

/-- Counterexample to claim C9: on the self-referential object `a` with
`a.error = a` (a cyclic error chain), `getErrorMessage` never returns — the
unwrapping recursion diverges, so the function does not terminate for every
input value. -/
theorem getErrorMessage_cycle_diverges :
    GemDiverges cyclicHeap (JSVal.obj none (some 0) "") := by
  intro fuel
  induction fuel with
  | zero => rfl
  | succ fuel ih =>
    show getErrorMessage cyclicHeap fuel (cyclicHeap 0) = none
    exact ih

/-- Claim C9 as amended: `getErrorMessage` terminates with a string for every
value whose `error`-chain settles after finitely many unwrappings (every
acyclic chain); a plain string is returned as-is, an Error's message is
used, an object's truthy `message` field is preferred, and the `error`
field is unwrapped recursively — but on a cyclic chain it diverges. -/
theorem getErrorMessage_settles :
    (∀ (h : Nat → JSVal) (v : JSVal) (n : Nat), GemSettles h v n →
        ∃ s, getErrorMessage h n v = some s) ∧
    (∀ (h : Nat → JSVal) (fuel : Nat) (s : String),
        getErrorMessage h fuel (JSVal.str s) = some s) ∧
    (∀ (h : Nat → JSVal) (fuel : Nat) (m : String),
        getErrorMessage h fuel (JSVal.errObj m) = some m) ∧
    (∀ (h : Nat → JSVal) (fuel : Nat) (m rest : String) (e : Option Nat),
        getErrorMessage h fuel (JSVal.obj (some m) e rest) = some m) ∧
    (∀ (h : Nat → JSVal) (fuel : Nat) (e : Nat) (rest : String),
        getErrorMessage h (fuel + 1) (JSVal.obj none (some e) rest) =
          getErrorMessage h fuel (h e)) := by
  refine ⟨?_, ?_, ?_, ?_, ?_⟩
  · intro h v n hs
    induction hs with
    | strCase s => exact ⟨s, rfl⟩
    | errCase m => exact ⟨m, rfl⟩
    | msgCase m e rest => exact ⟨m, rfl⟩
    | stringifyCase rest => exact ⟨rest, rfl⟩
    | primCase => exact ⟨"Unknown error", rfl⟩
    | unwrapCase e rest n hrec ih => exact ih
  · intro h fuel s
    cases fuel
    · rfl
    · rfl
  · intro h fuel m
    cases fuel
    · rfl
    · rfl
  · intro h fuel m rest e
    cases fuel
    · rfl
    · rfl
  · intro h fuel e rest
    rfl

/-- Witness for the amended C9: the nested chain from the unit tests — an
object whose `error` refers to an object carrying `message: "nested error"`
— settles at depth 1 and yields that message. -/
theorem getErrorMessage_settles_witness :
    (∃ s, getErrorMessage
        (fun n => if n = 1 then JSVal.obj (some "nested error") none "" else JSVal.prim)
        1 (JSVal.obj none (some 1) "") = some s) ∧
    getErrorMessage
        (fun n => if n = 1 then JSVal.obj (some "nested error") none "" else JSVal.prim)
        1 (JSVal.obj none (some 1) "") = some "nested error" :=
  ⟨getErrorMessage_settles.1
      (fun n => if n = 1 then JSVal.obj (some "nested error") none "" else JSVal.prim)
      (JSVal.obj none (some 1) "") 1
      (GemSettles.unwrapCase 1 "" 0 (GemSettles.msgCase "nested error" none "")),
   by decide⟩
